import Mathlib

/-!
Verification of the dezoomify tile-geometry / addressing engine and the
download-and-composite pipeline (`src/dezoomify.py`), as a shallow embedding.

Conventions of the embedding:
* Python's `int(ceil(a / float(b)))` on nonnegative integers is `(a + b - 1) / b`
  on `Nat` (exact for the magnitudes the program handles).
* Python's `int(a / 2.)` and `floor(a / pow(2, k))` on nonnegative integers are
  `Nat` division.
* The unbounded `while True` loop of `get_zoom_levels` is given explicit fuel;
  `none` means the loop has not terminated within the given fuel (and a result
  that is `none` for every fuel is a non-terminating run).
* Network responses are modelled by a function from the attempt number to an
  outcome; `time.sleep` is modelled by recording the slept durations.
-/

/-- Python `int(ceil(a / float(b)))` for nonnegative integers (`b > 0`). -/
def pyCeilDiv (a b : Nat) : Nat := (a + b - 1) / b

/-! ### `UntilerDezoomify.get_zoom_levels` (dezoomify.py lines 646-664)

The Python loop runs `while True`, computing
`width_in_tiles = int(ceil(loc_width / float(tile_size)))` (likewise height),
appending the pair, breaking only when both equal 1, and otherwise halving
`loc_width = int(loc_width / 2.)`.  `zoomLevelsFuel` is that loop with fuel;
`get_zoom_levels` applies the final `self.levels.reverse()`. -/

def zoomLevelsFuel (ts : Nat) : Nat → Nat → Nat → Option (List (Nat × Nat))
  | 0, _, _ => none
  | fuel + 1, w, h =>
    let wt := pyCeilDiv w ts
    let ht := pyCeilDiv h ts
    if wt = 1 ∧ ht = 1 then some [(wt, ht)]
    else
      match zoomLevelsFuel ts fuel (w / 2) (h / 2) with
      | none => none
      | some ls => some ((wt, ht) :: ls)

/-- `get_zoom_levels`: the loop above followed by `self.levels.reverse()`,
so index 0 is the 1x1 level and the last index is the full resolution. -/
def get_zoom_levels (mw mh ts fuel : Nat) : Option (List (Nat × Nat)) :=
  (zoomLevelsFuel ts fuel mw mh).map List.reverse

/-! ### `UntilerDezoomify.get_tile_index` / `get_tile_url` (lines 666-693)

`get_tile_index` reads the instance fields `self.width` and `self.height`,
which `get_properties` (lines 629-630) sets to the pixel size of the
*selected* zoom level: `int(max_width / 2 ** (max_zoom - zoom_level))`. -/

/-- `self.width` after `get_properties`: `int(max_width / 2 ** (max_zoom - zl))`. -/
def levelWidth (mw mz zl : Nat) : Nat := mw / 2 ^ (mz - zl)

/-- `int(ceil(floor(w / pow(2, mz - i)) / tile_size))` as in `get_tile_index`,
where `w` is the instance field `self.width`.  (Modelled for `i ≤ mz`, the
only levels the program addresses.) -/
def tilesWideCodeAt (w ts mz i : Nat) : Nat := pyCeilDiv (w / 2 ^ (mz - i)) ts

/-- Same for `self.height`. -/
def tilesHighCodeAt (h ts mz i : Nat) : Nat := pyCeilDiv (h / 2 ^ (mz - i)) ts

/-- The `for i in range(level)` accumulation in `get_tile_index`. -/
def tileIndexBase (w h ts mz level : Nat) : Nat :=
  (List.range level).foldl
    (fun acc i => acc + tilesWideCodeAt w ts mz i * tilesHighCodeAt h ts mz i) 0

/-- `UntilerDezoomify.get_tile_index(level, x, y)` (lines 666-684):
`index = x + y * tilesWide(level)` plus the cumulative tile counts of all
coarser levels, all computed from the instance fields `w = self.width`,
`h = self.height`. -/
def get_tile_index (w h ts mz level x y : Nat) : Nat :=
  x + y * tilesWideCodeAt w ts mz level + tileIndexBase w h ts mz level

/-- `UntilerDezoomify.get_tile_url(col, row)` (lines 686-693):
`TileGroup{index // tile_size}/{zoom_level}-{col}-{row}.{ext}` appended to the
base directory, with `ext = 'jpg'`. -/
def get_tile_url (base : String) (w h ts mz zl col row : Nat) : String :=
  let tile_index := get_tile_index w h ts mz zl col row
  let tile_group := tile_index / ts
  base ++ "TileGroup" ++ toString tile_group ++ "/" ++ toString zl ++ "-" ++
    toString col ++ "-" ++ toString row ++ "." ++ "jpg"

/-! Second definition, following the spec's words, for comparison with the
source (the refinement side of claim C1). -/

/-- Follows the spec's words: `tilesWideAt(i) = ceil(floor(maxWidth / 2^(maxZoom-i)) / tileSize)`
— the per-level tile counts are derived from the pyramid's *maximum* width. -/
def specTilesWideAt (mw ts mz i : Nat) : Nat := pyCeilDiv (mw / 2 ^ (mz - i)) ts

/-- Follows the spec's words, from the maximum height. -/
def specTilesHighAt (mh ts mz i : Nat) : Nat := pyCeilDiv (mh / 2 ^ (mz - i)) ts

/-- Follows the spec's words: `index = col + row * tilesWideAt(level) + Σ_{i<level} tilesWideAt(i) * tilesHighAt(i)`,
with the tile counts taken from the pyramid's maximum dimensions. -/
def specTileIndex (mw mh ts mz level col row : Nat) : Nat :=
  col + row * specTilesWideAt mw ts mz level +
    (List.range level).foldl
      (fun acc i => acc + specTilesWideAt mw ts mz i * specTilesHighAt mh ts mz i) 0

/-- Follows the spec's words: retrieval key `{base}/TileGroup{group}/{level}-{col}-{row}.{ext}`
with `group = floor(index / tileSize)` and `index` from `specTileIndex`. -/
def specTileUrl (base : String) (mw mh ts mz zl col row : Nat) : String :=
  let tile_index := specTileIndex mw mh ts mz zl col row
  let tile_group := tile_index / ts
  base ++ "TileGroup" ++ toString tile_group ++ "/" ++ toString zl ++ "-" ++
    toString col ++ "-" ++ toString row ++ "." ++ "jpg"

/-! ### `UntilerDezoomify.get_properties`, zoom-level resolution (lines 615-626) -/

/-- Lines 615-626: the requested zoom level is kept if `0 ≤ z ≤ max_zoom`,
mapped to `max_zoom + z + 1` if `-max_zoom - 1 ≤ z ≤ -1`, and otherwise
`ZoomLevelError` is raised after logging the valid range
`[-max_zoom - 1, max_zoom]` (the error payload here is that reported range). -/
def resolveZoomLevel (maxZoom : Nat) (requested : Int) : Except (Int × Int) Int :=
  if 0 ≤ requested ∧ requested ≤ (maxZoom : Int) then
    Except.ok requested
  else if -(maxZoom : Int) - 1 ≤ requested ∧ requested ≤ -1 then
    Except.ok ((maxZoom : Int) + requested + 1)
  else
    Except.error (-(maxZoom : Int) - 1, (maxZoom : Int))

/-! ### `open_url` retry loop (lines 88-121) and `untile_image.download` (lines 297-313)

A network attempt either succeeds, yields an HTTP error such as 404
(`urllib.error.HTTPError`, which *subclasses* `urllib.error.URLError`), or
yields another `URLError` (connection failure etc.).  `open_url` catches
`URLError` — hence also `HTTPError` — sleeps `2 ** (5 - retry)` seconds and
recurses with `retry - 1`; at `retry == 0` the exception is re-raised.
`download` then catches only `HTTPError`, turning it into a missing tile
`(None, None)`; any other exception propagates out of the download. -/

inductive FetchOutcome
  | ok
  | http404
  | netError
deriving DecidableEq

/-- `open_url(url, retry)`: the response of attempt `attempt` is
`resp attempt`; returns the result together with the list of slept durations
(seconds), in order.  The sleep before a retry is `2 ** (5 - retry)` with
`retry` the current parameter value, exactly as in the source. -/
def open_url (resp : Nat → FetchOutcome) : Nat → Nat → Except FetchOutcome Nat × List Nat
  | retry, attempt =>
    match resp attempt with
    | FetchOutcome.ok => (Except.ok attempt, [])
    | e =>
      match retry with
      | 0 => (Except.error e, [])
      | r + 1 =>
        let rest := open_url resp r (attempt + 1)
        (rest.1, 2 ^ (5 - (r + 1)) :: rest.2)

inductive DownloadResult
  | tile (attempt : Nat)
  | missing
  | raised (e : FetchOutcome)
deriving DecidableEq

/-- `untile_image.download` (lines 297-313): calls `download_url`, which calls
`open_url` with the default `retry=5`; `except urllib.error.HTTPError` maps the
tile to `(None, None)` (missing); any other exception propagates (`raised`). -/
def download (resp : Nat → FetchOutcome) : DownloadResult :=
  match (open_url resp 5 0).1 with
  | Except.ok a => DownloadResult.tile a
  | Except.error FetchOutcome.http404 => DownloadResult.missing
  | Except.error e => DownloadResult.raised e

/-! ### jpegtran verification in `ImageUntiler.__init__` (lines 182-202) -/

inductive CompositorError
  | jpegtranException
deriving DecidableEq

/-- The body of the `try:` block at lines 192-200: run `jpegtran --help`; if
`'-drop'` is not in the output, log and `raise JpegtranException`. -/
def jpegtranDropCheckBody (helpHasDrop : Bool) : Except CompositorError Unit :=
  if helpHasDrop then Except.ok () else Except.error CompositorError.jpegtranException

/-- Lines 182-202 of `ImageUntiler.__init__`: raise `JpegtranException` when the
executable is absent (line 186) or lacks execute permission (line 190); then run
the `-drop` capability check *inside* `try: ... except Exception as e:` whose
handler only logs (line 202) — so every exception of the body, including the
`JpegtranException` raised for a missing `-drop` feature, is swallowed and
initialisation continues. -/
def jpegtranVerify (present executable helpHasDrop : Bool) : Except CompositorError Unit :=
  if present = false then Except.error CompositorError.jpegtranException
  else if executable = false then Except.error CompositorError.jpegtranException
  else
    match jpegtranDropCheckBody helpHasDrop with
    | Except.ok _ => Except.ok ()
    | Except.error _ => Except.ok ()

/-! ### Tile enumeration and the thread pool (lines 315-322)

`tile_positions = itertools.product(range(self.x_tiles), range(self.y_tiles))`
enumerates `(col, row)` with `col` as the outer loop.  `pool.imap(download,
tile_positions)` runs downloads concurrently but yields results in the order of
the inputs; it is modelled as workers completing in an arbitrary order `sched`
(each completion filling the slot of its input index) with the consumer reading
slots `0, 1, 2, ...` in order, blocking until each is filled. -/

def tile_positions (xT yT : Nat) : List (Nat × Nat) :=
  (List.range xT).flatMap (fun col => (List.range yT).map (fun row => (col, row)))

/-- Workers complete in the order given by `sched`; completion of index `i`
stores `f addrs[i]` in slot `i`. -/
def poolRunSlots {α β : Type} (f : α → β) (addrs : List α) (sched : List Nat) :
    Nat → Option β :=
  sched.foldl
    (fun slots i => fun j => if j = i then (addrs.get? i).map f else slots j)
    (fun _ => none)

/-- The consumer of `pool.imap` reads slots `0, ..., n-1` strictly in order;
`none` if some needed slot was never filled. -/
def poolCollect {β : Type} (slots : Nat → Option β) : Nat → Option (List β)
  | 0 => some []
  | n + 1 =>
    match poolCollect slots n, slots n with
    | some l, some b => some (l ++ [b])
    | _, _ => none

/-- `pool.imap f addrs` under completion order `sched`. -/
def pool_imap {α β : Type} (f : α → β) (addrs : List α) (sched : List Nat) :
    Option (List β) :=
  poolCollect (poolRunSlots f addrs sched) addrs.length

/-! ### `untile_image.jplarge` (lines 324-459): incremental compositor

The loop `for i, (col, row) in enumerate(self.downloaded_iterator)` keeps the
counters `current_col` and `tile_in_column` plus the ping-pong indices
`active_tmp` and `active_final`.  A missing tile `(None, None)` just hits
`continue`.  A tile whose `col` differs from `current_col` matches no branch of
`if col == current_col:` and is skipped entirely.  The jpegtran invocations are
recorded as `JOp` values (newest first in `rops`). -/

inductive JOp
  | initCrop (col row w h : Nat)
  | dropTile (col row yOff : Nat)
  | promoteFirst (w h : Nat)
  | promoteDrop (xOff : Nat)
deriving DecidableEq

structure JplargeState where
  current_col : Nat
  tile_in_column : Nat
  num_joined : Nat
  active_tmp : Nat
  active_final : Nat
  rops : List JOp

/-- One iteration of the `jplarge` joining loop (lines 351-427), for pixel size
`w × h` of the selected level, tile size `ts`, and grid `xT × yT`. -/
def jplargeStep (w h ts xT yT : Nat) (s : JplargeState) (t : Option (Nat × Nat)) :
    JplargeState :=
  match t with
  | none => s
  | some (col, row) =>
    if col = s.current_col then
      let op :=
        if s.tile_in_column = 0 ∧ ¬s.current_col = xT - 1 then
          JOp.initCrop col row ts h
        else if s.tile_in_column = 0 ∧ s.current_col = xT - 1 then
          JOp.initCrop col row (w - (xT - 1) * ts) h
        else
          JOp.dropTile col row (row * ts)
      let s1 : JplargeState :=
        { s with rops := op :: s.rops, num_joined := s.num_joined + 1 }
      if s1.tile_in_column = yT - 1 ∧ s1.current_col = 0 then
        { s1 with
            rops := JOp.promoteFirst w h :: s1.rops,
            current_col := s1.current_col + 1,
            tile_in_column := 0,
            active_final := (s1.active_final + 1) % 2,
            active_tmp := (s1.active_tmp + 1) % 2 }
      else if s1.tile_in_column = yT - 1 ∧ ¬s1.current_col = 0 then
        { s1 with
            rops := JOp.promoteDrop (s1.current_col * ts) :: s1.rops,
            current_col := s1.current_col + 1,
            tile_in_column := 0,
            active_final := (s1.active_final + 1) % 2,
            active_tmp := (s1.active_tmp + 1) % 2 }
      else
        { s1 with
            tile_in_column := s1.tile_in_column + 1,
            active_tmp := (s1.active_tmp + 1) % 2 }
    else s

/-- The whole joining loop over the ordered tile-result sequence
(`none` = the download returned `(None, None)`). -/
def jplargeRun (w h ts xT yT : Nat) (results : List (Option (Nat × Nat))) :
    JplargeState :=
  results.foldl (jplargeStep w h ts xT yT) ⟨0, 0, 0, 0, 0, []⟩

/-- Line 438: `num_missing = self.num_tiles - self.num_joined` with
`num_tiles = x_tiles * y_tiles` (line 255). -/
def jplargeNumMissing (xT yT : Nat) (s : JplargeState) : Nat :=
  xT * yT - s.num_joined

/-! ### Tile storage lifecycle (lines 139-152, 245-248, 294-295, 504-522) -/

structure UntilerArgs where
  store : Bool
  no_download : Bool
  out : String

/-- Lines 151-152: `if self.no_download: self.store = True`. -/
def effectiveStore (a : UntilerArgs) : Bool :=
  if a.no_download then true else a.store

/-- Index of the last occurrence of `c` in `l`, if any. -/
def lastIdxOf (c : Char) (l : List Char) : Option Nat :=
  ((List.range l.length).filter (fun i => l.get? i = some c)).getLast?

/-- Python `os.path.splitext(p)[0]` (POSIX rules): strip from the last `.` that
lies inside the basename, provided some non-dot character of the basename
precedes it; otherwise return `p` unchanged. -/
def splitextRoot (p : String) : String :=
  let l := p.toList
  let sepIdx : Int := ((lastIdxOf '/' l).map Int.ofNat).getD (-1)
  match lastIdxOf '.' l with
  | none => p
  | some d =>
    if sepIdx < (d : Int) ∧
        (List.range d).any (fun k => sepIdx < (k : Int) ∧ ¬l.get? k = some '.') then
      String.mk (l.take d)
    else p

/-- `ImageUntiler.setup_tile_directory` (lines 504-522): with `in_local_dir`
the directory is `os.path.splitext(output_file_name)[0]`; otherwise a fresh
temporary directory (here the parameter `tmpDir`). -/
def setup_tile_directory (in_local_dir : Bool) (output_file_name tmpDir : String) :
    String :=
  if in_local_dir then splitextRoot output_file_name else tmpDir

/-- `untile_image.local_tile_path` (lines 294-295):
`os.path.join(self.tile_dir, "{col}_{row}.{ext}")`. -/
def local_tile_path (tile_dir : String) (col row : Nat) (ext : String) : String :=
  tile_dir ++ "/" ++ toString col ++ "_" ++ toString row ++ "." ++ ext

/-- Lines 245-248 (`process_image`'s `finally:`): the tile directory is removed
iff `not self.store and self.tile_dir`. -/
def cleanupDeletes (store tile_dir_set : Bool) : Bool :=
  !store && tile_dir_set

/-! ## Claims -/

/-- C1: the retrieval key does NOT follow the spec formula built from the
pyramid's maximum dimensions.  `get_tile_index` reads `self.width`/`self.height`,
which hold the pixel size of the *selected* level, so the cumulative tile
counts depend on which zoom level was selected.  For a 10000×10000 pyramid
with tile size 256 (`maxZoom = 6`), downloading at level 5
(`self.width = self.height = 5000`), the tile `(col 0, row 19)` is requested
from `TileGroup0` while the spec formula — the server's actual layout —
puts it in `TileGroup2`. -/
theorem get_tile_url_uses_selected_level_size :
    get_tile_url "" (levelWidth 10000 6 5) (levelWidth 10000 6 5) 256 6 5 0 19 =
      "TileGroup0/5-0-19.jpg" ∧
    specTileUrl "" 10000 10000 256 6 5 0 19 = "TileGroup2/5-0-19.jpg" ∧
    ¬ get_tile_url "" (levelWidth 10000 6 5) (levelWidth 10000 6 5) 256 6 5 0 19 =
        specTileUrl "" 10000 10000 256 6 5 0 19 := by
  refine ⟨rfl, rfl, ?_⟩
  decide

/-- The tile-result sequence of an 11×16 grid that is complete except for the
single tile `(col 2, row 3)`, in the canonical column-major order. -/
def c2Results : List (Option (Nat × Nat)) :=
  (tile_positions 11 16).map (fun p => if p = (2, 3) then none else some p)

set_option maxRecDepth 8000 in
/-- C2: one missing tile derails the compositor's counter-based bookkeeping.
On an 11×16 grid missing only `(2, 3)`, `tile_in_column` never reaches
`y_tiles - 1` for column 2, so column 2 is never promoted, `current_col` stays
at 2 forever, every tile of columns 3..10 fails the `col == current_col` test
and is silently skipped, only 47 of the 175 available tiles are joined, and
the reported missing count is 129, not 1. -/
theorem jplarge_single_missing_derails :
    (jplargeRun 2679 4000 256 11 16 c2Results).num_joined = 47 ∧
    (jplargeRun 2679 4000 256 11 16 c2Results).current_col = 2 ∧
    jplargeNumMissing 11 16 (jplargeRun 2679 4000 256 11 16 c2Results) = 129 ∧
    ¬ jplargeNumMissing 11 16 (jplargeRun 2679 4000 256 11 16 c2Results) = 1 := by
  decide

/-- C4: zoom-level resolution behaves exactly as specified: a requested level
in `[0, maxZoom]` is returned unchanged, one in `[-maxZoom-1, -1]` is mapped to
`maxZoom + requested + 1`, and anything else fails with the valid range
`[-maxZoom-1, maxZoom]` reported. -/
theorem resolveZoomLevel_spec (maxZoom : Nat) (requested : Int) :
    (0 ≤ requested → requested ≤ (maxZoom : Int) →
      resolveZoomLevel maxZoom requested = Except.ok requested) ∧
    (-(maxZoom : Int) - 1 ≤ requested → requested ≤ -1 →
      resolveZoomLevel maxZoom requested =
        Except.ok ((maxZoom : Int) + requested + 1)) ∧
    (requested < -(maxZoom : Int) - 1 ∨ (maxZoom : Int) < requested →
      resolveZoomLevel maxZoom requested =
        Except.error (-(maxZoom : Int) - 1, (maxZoom : Int))) := by
  unfold resolveZoomLevel
  refine ⟨?_, ?_, ?_⟩
  · intro h1 h2
    rw [if_pos ⟨h1, h2⟩]
  · intro h1 h2
    rw [if_neg, if_pos ⟨h1, h2⟩]
    omega
  · intro h
    rw [if_neg, if_neg] <;> omega

/-- Witness for C4: with `maxZoom = 4`, requesting `-1` selects 4 (the finest
level), requesting `0` selects 0, requesting `2` is kept, and both `7` and
`-6` are rejected with the reported range `[-5, 4]`. -/
theorem resolveZoomLevel_spec_witness :
    resolveZoomLevel 4 (-1) = Except.ok 4 ∧
    resolveZoomLevel 4 0 = Except.ok 0 ∧
    resolveZoomLevel 4 2 = Except.ok 2 ∧
    resolveZoomLevel 4 7 = Except.error (-5, 4) ∧
    resolveZoomLevel 4 (-6) = Except.error (-5, 4) := by
  refine ⟨?_, ?_, ?_, ?_, ?_⟩
  · exact (resolveZoomLevel_spec 4 (-1)).2.1 (by decide) (by decide)
  · exact (resolveZoomLevel_spec 4 0).1 (by decide) (by decide)
  · exact (resolveZoomLevel_spec 4 2).1 (by decide) (by decide)
  · exact (resolveZoomLevel_spec 4 7).2.2 (Or.inr (by decide))
  · exact (resolveZoomLevel_spec 4 (-6)).2.2 (Or.inl (by decide))

/-- C6 (counterexample): a tile whose every attempt returns HTTP 404 *is*
retried — `HTTPError` subclasses `URLError`, so `open_url`'s handler catches it
and sleeps 1, 2, 4, 8, 16 seconds before re-raising — and only then mapped to
a missing tile; whereas a tile whose attempts all fail with a non-HTTP network
error is, after the same five retries, *not* treated as missing: the error
propagates out of the download. -/
theorem download_404_retries_counterexample :
    download (fun _ => FetchOutcome.http404) = DownloadResult.missing ∧
    (open_url (fun _ => FetchOutcome.http404) 5 0).2 = [1, 2, 4, 8, 16] ∧
    ¬ (open_url (fun _ => FetchOutcome.http404) 5 0).2 = [] ∧
    download (fun _ => FetchOutcome.netError) =
      DownloadResult.raised FetchOutcome.netError := by
  refine ⟨rfl, rfl, ?_, rfl⟩
  decide

/-- C6 (amended): every `URLError` — including a 404, since `HTTPError`
subclasses it — is retried with exponential backoff (five retries, sleeping
1, 2, 4, 8, 16 seconds); after the budget a 404 is treated as a missing tile,
while any other network failure propagates out of the download instead. -/
theorem download_retry_amended (resp : Nat → FetchOutcome) :
    ((∀ k, k ≤ 5 → resp k = FetchOutcome.http404) →
      download resp = DownloadResult.missing ∧
      (open_url resp 5 0).2 = [1, 2, 4, 8, 16]) ∧
    ((∀ k, k ≤ 5 → resp k = FetchOutcome.netError) →
      download resp = DownloadResult.raised FetchOutcome.netError ∧
      (open_url resp 5 0).2 = [1, 2, 4, 8, 16]) ∧
    (resp 0 = FetchOutcome.ok →
      download resp = DownloadResult.tile 0 ∧ (open_url resp 5 0).2 = []) := by
  refine ⟨?_, ?_, ?_⟩
  · intro h
    have e0 := h 0 (by omega); have e1 := h 1 (by omega); have e2 := h 2 (by omega)
    have e3 := h 3 (by omega); have e4 := h 4 (by omega); have e5 := h 5 (by omega)
    constructor
    · simp [download, open_url, e0, e1, e2, e3, e4, e5]
    · simp [open_url, e0, e1, e2, e3, e4, e5]
  · intro h
    have e0 := h 0 (by omega); have e1 := h 1 (by omega); have e2 := h 2 (by omega)
    have e3 := h 3 (by omega); have e4 := h 4 (by omega); have e5 := h 5 (by omega)
    constructor
    · simp [download, open_url, e0, e1, e2, e3, e4, e5]
    · simp [open_url, e0, e1, e2, e3, e4, e5]
  · intro h
    constructor
    · simp [download, open_url, h]
    · simp [open_url, h]

/-- Witness for the amended C6, at the constant-404 response. -/
theorem download_retry_amended_witness :
    download (fun _ => FetchOutcome.http404) = DownloadResult.missing ∧
    (open_url (fun _ => FetchOutcome.http404) 5 0).2 = [1, 2, 4, 8, 16] :=
  (download_retry_amended (fun _ => FetchOutcome.http404)).1 (fun _ _ => rfl)

/-- C7: the `-drop` capability check does not abort the run.  When jpegtran is
present and executable but its help output lacks `-drop`, the
`JpegtranException` raised inside the `try:` block is caught by the enclosing
`except Exception` handler, which only logs — initialisation returns normally
and image processing proceeds.  Only the existence and execute-permission
checks abort. -/
theorem jpegtranVerify_drop_check_swallowed :
    jpegtranVerify true true false = Except.ok () ∧
    jpegtranDropCheckBody false = Except.error CompositorError.jpegtranException ∧
    jpegtranVerify false true true = Except.error CompositorError.jpegtranException ∧
    jpegtranVerify true false true = Except.error CompositorError.jpegtranException :=
  ⟨rfl, rfl, rfl, rfl⟩

/-- Once the halved width reaches 0 (which happens as soon as the running
width is 1 while the loop continues), `width_in_tiles` is 0 on every further
iteration, the `(1, 1)` stop condition can never hold again, and the loop runs
out of any amount of fuel. -/
lemma zoomLevelsFuel_width_zero (ts : Nat) (hts : 2 ≤ ts) :
    ∀ fuel h, zoomLevelsFuel ts fuel 0 h = none := by
  intro fuel
  induction fuel with
  | zero => intro h; rfl
  | succ n ih =>
    intro h
    have hcd : pyCeilDiv 0 ts = 0 := Nat.div_eq_of_lt (by omega)
    simp only [zoomLevelsFuel, hcd]
    rw [if_neg (by omega)]
    rw [ih (h / 2)]

/-- C3: `get_zoom_levels` does NOT terminate for all positive inputs.  For
`maxWidth = 1, maxHeight = 257, tileSize = 256` the first iteration yields
tile counts `(1, 2)`, the width is halved to 0, and from then on
`width_in_tiles = 0` forever, so the `(1, 1)` stop condition never holds: the
loop exhausts every amount of fuel.  On inputs where the loop does stop, it
behaves as claimed — e.g. `2679 × 4000` with tile size 256 yields exactly
`[(1,1), (2,2), (3,4), (6,8), (11,16)]`, ending at `(ceil(2679/256),
ceil(4000/256)) = (11, 16)`. -/
theorem get_zoom_levels_nonterminating :
    (∀ fuel, get_zoom_levels 1 257 256 fuel = none) ∧
    get_zoom_levels 2679 4000 256 32 =
      some [(1, 1), (2, 2), (3, 4), (6, 8), (11, 16)] := by
  constructor
  · intro fuel
    cases fuel with
    | zero => rfl
    | succ n =>
      unfold get_zoom_levels
      simp only [zoomLevelsFuel, pyCeilDiv]
      norm_num
      rw [zoomLevelsFuel_width_zero 256 (by omega) n 128]
  · decide

/-- C8: geometry construction performs NO validation of positivity: with
`maxWidth = 0` (e.g. `WIDTH="0"` in the properties file), `maxHeight = 100`,
`tileSize = 256`, `get_zoom_levels` loops forever (`width_in_tiles` is 0 on
every iteration, so the `(1, 1)` stop condition never holds) instead of
failing with `InvalidGeometry`. -/
theorem get_zoom_levels_no_validation :
    ∀ fuel, get_zoom_levels 0 100 256 fuel = none := by
  intro fuel
  unfold get_zoom_levels
  rw [zoomLevelsFuel_width_zero 256 (by omega) fuel 100]
  rfl

/-- The cumulative level offset of `get_tile_index` grows by exactly one full
level's tile count from one level to the next. -/
lemma tileIndexBase_succ (w h ts mz L : Nat) :
    tileIndexBase w h ts mz (L + 1) =
      tileIndexBase w h ts mz L +
        tilesWideCodeAt w ts mz L * tilesHighCodeAt h ts mz L := by
  simp [tileIndexBase, List.range_succ]

/-- Arithmetic core of the cross-level separation: any in-bounds local index
at a level is below that level's full tile count, which is exactly the offset
gained by the next level. -/
lemma tileIndexArith (W W2 H B x y x2 y2 : Nat) (hx : x < W) (hy : y < H) :
    x + y * W + B < x2 + y2 * W2 + (B + W * H) := by
  have h4 : x + y * W < W * H := by
    calc x + y * W < W + y * W := Nat.add_lt_add_right hx (y * W)
    _ = (y + 1) * W := by ring
    _ ≤ H * W := Nat.mul_le_mul_right W hy
    _ = W * H := Nat.mul_comm H W
  calc x + y * W + B < W * H + B := Nat.add_lt_add_right h4 B
  _ ≤ B + W * H := Nat.le_of_eq (Nat.add_comm _ _)
  _ ≤ x2 + y2 * W2 + (B + W * H) := Nat.le_add_left _ _

/-- Arithmetic core of the within-level monotonicity. -/
lemma tileIndexArithWithin (W B c1 r1 c2 r2 : Nat)
    (hp : r1 * W + c1 < r2 * W + c2) :
    c1 + r1 * W + B < c2 + r2 * W + B := by
  have hq : c1 + r1 * W < c2 + r2 * W := by
    rw [Nat.add_comm c1, Nat.add_comm c2]; exact hp
  exact Nat.add_lt_add_right hq B

/-- C5: `get_tile_index` is monotone.  Every index computed at level `L + 1`
strictly exceeds every index of an in-bounds tile at level `L` (levels are
strictly separated), and within a level the index is strictly increasing in
the traversal position `row * tilesWideAt(L) + col` (where `tilesWideAt` is
the per-level tile count the function itself uses). -/
theorem get_tile_index_monotone (w h ts mz L x y x2 y2 c1 r1 c2 r2 : Nat)
    (hx : x < tilesWideCodeAt w ts mz L) (hy : y < tilesHighCodeAt h ts mz L)
    (hp : r1 * tilesWideCodeAt w ts mz L + c1 <
      r2 * tilesWideCodeAt w ts mz L + c2) :
    get_tile_index w h ts mz L x y < get_tile_index w h ts mz (L + 1) x2 y2 ∧
    get_tile_index w h ts mz L c1 r1 < get_tile_index w h ts mz L c2 r2 := by
  unfold get_tile_index
  rw [tileIndexBase_succ]
  exact ⟨tileIndexArith _ _ _ _ _ _ _ _ hx hy, tileIndexArithWithin _ _ _ _ _ _ hp⟩

/-- Witness for C5: in the geometry `w = h = 1000`, `ts = 256`, `mz = 2`, the
in-bounds tile `(1, 1)` of level 1 indexes strictly below tile `(0, 0)` of
level 2, and within level 1 the position order `(1, 0) before (0, 1)` is
respected by the index. -/
theorem get_tile_index_monotone_witness :
    get_tile_index 1000 1000 256 2 1 1 1 < get_tile_index 1000 1000 256 2 2 0 0 ∧
    get_tile_index 1000 1000 256 2 1 1 0 < get_tile_index 1000 1000 256 2 1 0 1 :=
  get_tile_index_monotone 1000 1000 256 2 1 1 1 0 0 1 0 0 1
    (by decide) (by decide) (by decide)

/-- Peeling the last column off the enumeration. -/
lemma tile_positions_succ (n yT : Nat) :
    tile_positions (n + 1) yT =
      tile_positions n yT ++ (List.range yT).map (fun row => (n, row)) := by
  unfold tile_positions
  rw [List.range_succ, List.flatMap_append]
  simp

/-- The enumeration has one entry per grid position. -/
lemma tile_positions_length (xT yT : Nat) :
    (tile_positions xT yT).length = xT * yT := by
  induction xT with
  | zero => simp [tile_positions]
  | succ n ih =>
    rw [tile_positions_succ]
    simp [ih, Nat.succ_mul]

/-- Column-major order: position `c * yT + r` of the enumeration is `(c, r)`. -/
lemma tile_positions_get (xT yT c r : Nat) (hc : c < xT) (hr : r < yT) :
    (tile_positions xT yT).get? (c * yT + r) = some (c, r) := by
  induction xT with
  | zero => exact absurd hc (by omega)
  | succ n ih =>
    rw [tile_positions_succ]
    rcases Nat.lt_or_ge c n with hlt | hge
    · rw [List.get?_append]
      · exact ih hlt
      · rw [tile_positions_length]
        have h1 : c * yT + yT ≤ n * yT := by
          calc c * yT + yT = (c + 1) * yT := (Nat.succ_mul c yT).symm
          _ ≤ n * yT := Nat.mul_le_mul_right yT hlt
        exact Nat.lt_of_lt_of_le (Nat.add_lt_add_left hr (c * yT)) h1
    · have hcn : c = n := by omega
      subst hcn
      rw [List.get?_append_right]
      · rw [tile_positions_length, Nat.add_sub_cancel_left, List.get?_map,
          List.get?_range hr]
        rfl
      · rw [tile_positions_length]
        exact Nat.le_add_right _ _

/-- After all completions in `sched`, slot `j` holds the result for input `j`
iff `j` completed, independently of the completion order. -/
lemma poolRunSlots_eval {α β : Type} (f : α → β) (addrs : List α)
    (sched : List Nat) (j : Nat) :
    poolRunSlots f addrs sched j =
      if j ∈ sched then (addrs.get? j).map f else none := by
  unfold poolRunSlots
  suffices h : ∀ acc : Nat → Option β,
      (sched.foldl
        (fun slots i => fun j2 => if j2 = i then (addrs.get? i).map f else slots j2)
        acc) j
        = if j ∈ sched then (addrs.get? j).map f else acc j by
    exact h (fun _ => none)
  induction sched with
  | nil => intro acc; simp
  | cons i rest ih =>
    intro acc
    simp only [List.foldl_cons]
    rw [ih]
    by_cases hjr : j ∈ rest
    · simp [hjr]
    · by_cases hji : j = i
      · subst hji
        simp [hjr]
      · simp [hjr, hji]

/-- The strictly ordered consumer assembles exactly the in-order image of the
input list once every needed slot is filled. -/
lemma poolCollect_eval {α β : Type} (f : α → β) (addrs : List α)
    (slots : Nat → Option β) :
    ∀ n, n ≤ addrs.length → (∀ j, j < n → slots j = (addrs.get? j).map f) →
      poolCollect slots n = some ((addrs.take n).map f) := by
  intro n
  induction n with
  | zero => intro _ _; rfl
  | succ m ih =>
    intro hle hs
    have hm := ih (by omega) (fun j hj => hs j (by omega))
    have hmlt : m < addrs.length := by omega
    have hsm : slots m = some (f (addrs.get ⟨m, hmlt⟩)) := by
      rw [hs m (by omega), List.get?_eq_get hmlt]
      rfl
    have htake : addrs.take (m + 1) = addrs.take m ++ [addrs.get ⟨m, hmlt⟩] := by
      rw [List.take_succ, List.getElem?_eq_getElem hmlt]
      simp
    simp only [poolCollect, hm, hsm, htake, List.map_append, List.map_cons,
      List.map_nil]

/-- C9: the enumeration fed to both the download pool and the compositor is
column-major (outer loop over `col`, inner over `row`), and `pool.imap` yields
exactly one result per input, in exactly the input order, whatever the order
in which the concurrent fetches complete (`sched` is any completion order
covering all inputs). -/
theorem tile_positions_pool_spec {β : Type} (xT yT c r : Nat)
    (f : Nat × Nat → β) (sched : List Nat)
    (hsched : ∀ j, j < xT * yT → j ∈ sched) (hc : c < xT) (hr : r < yT) :
    (tile_positions xT yT).length = xT * yT ∧
    (tile_positions xT yT).get? (c * yT + r) = some (c, r) ∧
    pool_imap f (tile_positions xT yT) sched =
      some ((tile_positions xT yT).map f) := by
  refine ⟨tile_positions_length xT yT, tile_positions_get xT yT c r hc hr, ?_⟩
  unfold pool_imap
  have hlen := tile_positions_length xT yT
  have hcoll := poolCollect_eval f (tile_positions xT yT)
    (poolRunSlots f (tile_positions xT yT) sched)
    (tile_positions xT yT).length (Nat.le_refl _)
    (fun j hj => by
      rw [poolRunSlots_eval, if_pos (hsched j (hlen ▸ hj))])
  rw [hcoll, List.take_length]

/-- Witness for C9: a 2×3 grid, downloads completing in the scrambled order
`[4, 2, 0, 5, 1, 3]`, still yields the results in column-major input order. -/
theorem tile_positions_pool_spec_witness :
    (tile_positions 2 3).length = 2 * 3 ∧
    (tile_positions 2 3).get? (1 * 3 + 2) = some (1, 2) ∧
    pool_imap (fun p => 10 * p.1 + p.2) (tile_positions 2 3) [4, 2, 0, 5, 1, 3] =
      some ((tile_positions 2 3).map (fun p => 10 * p.1 + p.2)) :=
  tile_positions_pool_spec 2 3 1 2 (fun p => 10 * p.1 + p.2) [4, 2, 0, 5, 1, 3]
    (by decide) (by decide) (by decide)

/-- C10: requesting no-download mode forces persistent tile storage
(`self.store = True`), the tile directory is the output path with its
extension stripped, tiles are read from `{col}_{row}.{ext}` inside it, and the
cleanup in `process_image`'s `finally:` never deletes the directory — deletion
requires `not self.store`. -/
theorem no_download_forces_store (a : UntilerArgs) (tmpDir : String)
    (col row : Nat) (hnd : a.no_download = true) :
    effectiveStore a = true ∧
    setup_tile_directory (effectiveStore a) a.out tmpDir = splitextRoot a.out ∧
    local_tile_path (setup_tile_directory (effectiveStore a) a.out tmpDir)
        col row "jpg" =
      splitextRoot a.out ++ "/" ++ toString col ++ "_" ++ toString row ++
        "." ++ "jpg" ∧
    cleanupDeletes (effectiveStore a) true = false ∧
    cleanupDeletes true true = false ∧
    cleanupDeletes true false = false := by
  have hs : effectiveStore a = true := by simp [effectiveStore, hnd]
  refine ⟨hs, ?_, ?_, ?_, rfl, rfl⟩
  · rw [hs]; rfl
  · rw [hs]; rfl
  · rw [hs]; rfl

/-- Witness for C10: `-x` with output file `zoom.jpg` stores tiles in `zoom/`,
reads tile `(3, 4)` from `zoom/3_4.jpg`, and never deletes the directory. -/
theorem no_download_forces_store_witness :
    effectiveStore ⟨false, true, "zoom.jpg"⟩ = true ∧
    setup_tile_directory (effectiveStore ⟨false, true, "zoom.jpg"⟩) "zoom.jpg"
        "/tmp/dezoomify_x" = splitextRoot "zoom.jpg" ∧
    local_tile_path
        (setup_tile_directory (effectiveStore ⟨false, true, "zoom.jpg"⟩)
          "zoom.jpg" "/tmp/dezoomify_x") 3 4 "jpg" =
      splitextRoot "zoom.jpg" ++ "/" ++ toString 3 ++ "_" ++ toString 4 ++
        "." ++ "jpg" ∧
    cleanupDeletes (effectiveStore ⟨false, true, "zoom.jpg"⟩) true = false ∧
    cleanupDeletes true true = false ∧
    cleanupDeletes true false = false :=
  no_download_forces_store ⟨false, true, "zoom.jpg"⟩ "/tmp/dezoomify_x" 3 4 rfl
